import Mathlib

/-!
Verification development for the `AutoML` orchestration core
(`lightautoml/automl/base.py`): a shallow embedding of the class
`AutoML` (`_initialize`, `fit_predict`, `predict`, `collect_used_feats`)
together with models of the external collaborators it calls (Reader,
ValidationIterator construction, Pipeline, Timer, Blender, Dataset
concatenation and conversion), and theorems settling the frozen claims
about the orchestrator.

External collaborators live outside the embedded source file; they are
modelled from the spec as an explicit `World` record of pure functions
plus predetermined Timer signal schedules, so that every run of the
orchestrator is a deterministic, executable function of its inputs.
-/

/-! ## Data model and embedded operations -/

/-- Abstract handle for raw (pre-Reader) input data. -/
abbrev Raw := Nat

/-- Abstract handle for the roles dictionary passed to the Reader. -/
abbrev Roles := Nat

/-- Abstract handle for a caller-supplied custom cv iterator. -/
abbrev CvIter := Nat

/-- Tag for the concrete runtime type of a Dataset (used by the
`from_dataset` conversion, which can fail on incompatible types). -/
abbrev DType := Nat

/-- Modelled from the spec: `LAMLDataset` is an abstract structured container
of feature columns with optional fold assignment; the orchestrator source
only inspects `.folds` and passes datasets around, concatenates them and
converts their concrete type. -/
structure LAMLDataset where
  dtype : DType
  cols : List String
  rows : Nat
  folds : Option (List Nat)
deriving DecidableEq

/-- Modelled from the spec: an `MLPipeline` is a named stateful unit; the
orchestrator only renames it (`upd_model_names`), fits it, asks it to
predict and reads `used_features`. Fitting behaviour itself is external
and lives in `World.pipeFit`. -/
structure MLPipeline where
  name : String
  usedFeatures : List String
deriving DecidableEq

/-- Modelled from the spec: `upd_model_names` stamps the orchestrator-chosen
name marker onto the pipeline. -/
def MLPipeline.upd_model_names (p : MLPipeline) (pref : String) : MLPipeline :=
  { p with name := pref }

/-- Modelled from the spec: a ValidationIterator as built by
`create_validation_iterator(train, valid, n_folds, cv_iter)`: a view over
the train Dataset, an optional holdout Dataset and an optional custom
iterator. -/
structure TrainValid where
  train : LAMLDataset
  valid : Option LAMLDataset
  n_folds : Option Nat
  cv_iter : Option CvIter
deriving DecidableEq

/-- Modelled from the spec: `create_validation_iterator` wraps its
arguments into the validation scheme used by one level. -/
def createValidationIterator (train : LAMLDataset) (valid : Option LAMLDataset)
    (n_folds : Option Nat) (cv_iter : Option CvIter) : TrainValid :=
  ⟨train, valid, n_folds, cv_iter⟩

/-- Modelled from the spec: `get_validation_data()` exposes the single
validation-part Dataset of the iterator: the holdout part when one was
supplied, otherwise the (out-of-fold view of the) train Dataset. -/
def TrainValid.get_validation_data (tv : TrainValid) : LAMLDataset :=
  tv.valid.getD tv.train

/-- Python exception kinds raised by the embedded code paths. -/
inductive AmlError where
  | assertionError (msg : String)
  | typeError (msg : String)
  | attributeError (attr : String)
deriving DecidableEq

/-- External collaborators of the orchestrator, modelled from the spec as
pure functions, plus the Timer signals as predetermined schedules indexed
by the number of pipeline fits completed so far (the Timer is queried once
after every fit, so its answer is a function of how far the run has
progressed). -/
structure World where
  fitRead : Raw → Option (List String) → Roles → LAMLDataset × List String
  read : Raw → Option (List String) → Bool → LAMLDataset
  pipeFit : MLPipeline → TrainValid → MLPipeline × LAMLDataset
  pipePredict : MLPipeline → LAMLDataset → LAMLDataset
  blendFit : List LAMLDataset → List MLPipeline → LAMLDataset × List MLPipeline
  blendPredict : List LAMLDataset → LAMLDataset
  convOk : DType → DType → Bool
  tle : List Bool
  childOOT : List Bool

/-- Modelled from the spec: the free `concatenate(datasets)` operation
joins feature columns column-wise, preserving row alignment; type and
fold metadata follow the first constituent. -/
def concatenate (ds : List LAMLDataset) : LAMLDataset :=
  match ds with
  | [] => ⟨0, [], 0, none⟩
  | d :: _ => ⟨d.dtype, ds.flatMap (fun x => x.cols), d.rows, d.folds⟩

/-- Modelled from the spec: `base.from_dataset(other)` converts `other`
to the concrete type of `base`, failing with a type error when the two
concrete types are incompatible under the worlds conversion table. -/
def fromDataset (w : World) (base other : LAMLDataset) : Except AmlError LAMLDataset :=
  if w.convOk base.dtype other.dtype then .ok { other with dtype := base.dtype }
  else .error (.typeError "from_dataset type mismatch")

/-- State of an `AutoML` instance: the Reader used-features bookkeeping,
the original level configuration `_levels` (deleted at the end of
`fit_predict`), the retained `levels` (created only inside `fit_predict`)
and the skip-connection flag. Missing Python attributes are `none`. -/
structure AutoML where
  readerUsed : List String
  _levels : Option (List (List MLPipeline))
  levels : Option (List (List MLPipeline))
  skip_conn : Bool
deriving DecidableEq

/-- Inner renaming loop of `_initialize`: pipe j of level i receives the
name Lvl_i_Pipe_j. -/
def renamePipes (i : Nat) : Nat → List MLPipeline → List MLPipeline
  | _, [] => []
  | j, p :: ps =>
    p.upd_model_names ("Lvl_" ++ toString i ++ "_Pipe_" ++ toString j) :: renamePipes i (j + 1) ps

/-- Outer renaming loop of `_initialize` over the levels. -/
def renameLevels : Nat → List (List MLPipeline) → List (List MLPipeline)
  | _, [] => []
  | i, lvl :: ls => renamePipes i 0 lvl :: renameLevels (i + 1) ls

/-- Embedding of `AutoML._initialize` (reached from `__init__`): assert a
non-empty level list, store the configuration and rename every pipeline
with its level and position indices. Timer and Blender behaviour is
carried by `World`, logging is out of scope. -/
def AutoML.create (readerUsed0 : List String) (levels : List (List MLPipeline))
    (skip_conn : Bool) : Except AmlError AutoML :=
  if 0 < levels.length then
    .ok ⟨readerUsed0, some (renameLevels 0 levels), none, skip_conn⟩
  else .error (.assertionError "At least 1 level should be defined")

/-- Result of fitting the pipelines of one level (the inner `for k,
ml_pipe in enumerate(level)` loop): retained pipes, their predictions,
the updated global fit counter and whether the loop broke on
`time_limit_exceeded`. -/
structure LevelFit where
  pipes : List MLPipeline
  preds : List LAMLDataset
  fits : Nat
  timedOut : Bool
deriving DecidableEq

/-- Embedding of the inner pipeline loop of `fit_predict`: fit each
pipeline in order, appending pipe and prediction; after each fit consult
the Timer (`tle` schedule at the index of that fit) and break with the
timed-out flag when it fires. -/
def fitLevelPipes (w : World) (tv : TrainValid) : List MLPipeline → Nat → LevelFit
  | [], fits => ⟨[], [], fits, false⟩
  | p :: ps, fits =>
    let fp := w.pipeFit p tv
    if w.tle.getD fits false then ⟨[fp.1], [fp.2], fits + 1, true⟩
    else
      let r := fitLevelPipes w tv ps (fits + 1)
      ⟨fp.1 :: r.pipes, fp.2 :: r.preds, r.fits, r.timedOut⟩

/-- Result of the level loop of `fit_predict`: the accumulated
`self.levels` entries of non-final levels, and the final processed levels
retained pipes and their raw (per-pipeline) predictions. -/
structure LoopRes where
  levels : List (List MLPipeline)
  pipes : List MLPipeline
  preds : List LAMLDataset
deriving DecidableEq

/-- Message of the TypeError re-raised on a failed skip-connection
conversion, in both `fit_predict` and `predict`. -/
def convErrMsg : String :=
  "Can not convert prediction dataset type to input features. Set skip_conn=False"

/-- Embedding of the level loop of `fit_predict` (`for n, level in
enumerate(self._levels, 1)`): fit the levels pipelines; the level is
final when the Timer fired during it, when the loop completed but the
child-out-of-time signal is set, or when it is the last configured level;
a non-final level appends its pipes to `self.levels`, concatenates its
predictions, optionally re-merges the original validation part (raising a
TypeError on conversion failure) and builds the next ValidationIterator;
a final level stops the loop with its pipes and raw predictions. -/
def runLevels (w : World) (sc : Bool) (N : Nat) :
    List (List MLPipeline) → Nat → TrainValid → Nat → List (List MLPipeline) →
    Except AmlError LoopRes
  | [], _, _, _, acc => .ok ⟨acc, [], []⟩
  | lvl :: rest, n, tv, fits, acc =>
    let lf := fitLevelPipes w tv lvl fits
    let flgLast : Bool :=
      if lf.timedOut then true
      else if w.childOOT.getD lf.fits false then true
      else n == N
    if flgLast then .ok ⟨acc, lf.pipes, lf.preds⟩
    else
      let lp := concatenate lf.preds
      if sc then
        let valid_part := tv.get_validation_data
        match fromDataset w valid_part lp with
        | .error _ => .error (.typeError convErrMsg)
        | .ok lp1 =>
          runLevels w sc N rest (n + 1)
            (createValidationIterator (concatenate [lp1, valid_part]) none none none)
            lf.fits (acc ++ [lf.pipes])
      else
        runLevels w sc N rest (n + 1)
          (createValidationIterator lp none none none) lf.fits (acc ++ [lf.pipes])

/-- Embedding of `collect_used_feats` over an explicit retained-levels
list: the union (deduplicated list) of `pipe.used_features` over every
retained pipeline of every retained level. -/
def collectUsedFeatsOf (levels : List (List MLPipeline)) : List String :=
  (levels.flatMap (fun lvl => lvl.flatMap (fun p => p.usedFeatures))).dedup

/-- Embedding of `AutoML.collect_used_feats`: reads `self.levels`, which
raises an AttributeError when `fit_predict` has not run yet. -/
def AutoML.collect_used_feats (a : AutoML) : Except AmlError (List String) :=
  match a.levels with
  | none => .error (.attributeError "levels")
  | some lv => .ok (collectUsedFeatsOf lv)

/-- Tail of `fit_predict` after the level loop: blend the final levels
raw predictions and pipes, append the pruned subset as the final retained
level, update the Readers used-features bookkeeping (remove every used
feature not referenced by a retained pipeline) and delete `_levels`. -/
def fitFinish (w : World) (a : AutoML) (readerUsed : List String) (lr : LoopRes) :
    LAMLDataset × AutoML :=
  let bf := w.blendFit lr.preds lr.pipes
  let levels2 := lr.levels ++ [bf.2]
  let cuf := collectUsedFeatsOf levels2
  let remove := readerUsed.filter (fun f => decide (f ∉ cuf))
  let readerUsed2 := readerUsed.filter (fun f => decide (f ∉ remove))
  (bf.1, { a with readerUsed := readerUsed2, levels := some levels2, _levels := none })

/-- Embedding of `AutoML.fit_predict`: start the Timer (implicit: the fit
counter starts at 0), `fit_read` the train data, check the two
multi-level assertions (cv folds present, no holdout validation), read
the optional validation data, build the initial ValidationIterator, run
the level loop, then blend, prune, update bookkeeping and delete
`_levels`. Accessing the deleted `_levels` raises an AttributeError. -/
def AutoML.fit_predict (w : World) (a : AutoML) (train_data : Raw) (roles : Roles)
    (train_features : Option (List String)) (cv_iter : Option CvIter)
    (valid_data : Option Raw) (valid_features : Option (List String)) :
    Except AmlError (LAMLDataset × AutoML) :=
  let fr := w.fitRead train_data train_features roles
  match a._levels with
  | none => .error (.attributeError "_levels")
  | some lvls =>
    if lvls.length ≤ 1 ∨ fr.1.folds.isSome then
      if lvls.length ≤ 1 ∨ valid_data = none then
        let valid_dataset := valid_data.map (fun vd => w.read vd valid_features true)
        let train_valid := createValidationIterator fr.1 valid_dataset none cv_iter
        match runLevels w a.skip_conn lvls.length lvls 1 train_valid 0 [] with
        | .error e => .error e
        | .ok lr => .ok (fitFinish w a fr.2 lr)
      else .error (.assertionError "Not possible to fit more than 1 level with holdout validation")
    else .error (.assertionError "Not possible to fit more than 1 level without cv folds")

/-- Embedding of the level loop of `predict` (`for n, level in
enumerate(self.levels, 1)`): every pipeline of the level predicts on the
current Dataset; a non-final level concatenates the predictions and
(under skip connections) re-merges them with the current Dataset, with
the same conversion failure mode as in training; the final level passes
its raw per-pipeline predictions to the Blenders `predict`. -/
def predictLevels (w : World) (sc : Bool) (N : Nat) :
    List (List MLPipeline) → Nat → LAMLDataset → Option LAMLDataset →
    Except AmlError (Option LAMLDataset)
  | [], _, _, bp => .ok bp
  | lvl :: rest, n, dataset, bp =>
    let preds := lvl.map (fun p => w.pipePredict p dataset)
    if n ≠ N then
      let lp := concatenate preds
      if sc then
        match fromDataset w dataset lp with
        | .error _ => .error (.typeError convErrMsg)
        | .ok lp1 => predictLevels w sc N rest (n + 1) (concatenate [lp1, dataset]) bp
      else predictLevels w sc N rest (n + 1) lp bp
    else predictLevels w sc N rest (n + 1) dataset (some (w.blendPredict preds))

/-- Embedding of `AutoML.predict`: read the input (with
`add_array_attrs=False`, which performs no Reader state update), then run
the inference level loop over the retained `self.levels` (raising an
AttributeError when `fit_predict` has not created them). The instance
state is returned unchanged: the source assigns no attribute. -/
def AutoML.predict (w : World) (a : AutoML) (data : Raw)
    (features_names : Option (List String)) :
    Except AmlError (Option LAMLDataset × AutoML) :=
  let dataset := w.read data features_names false
  match a.levels with
  | none => .error (.attributeError "levels")
  | some lvls =>
    match predictLevels w a.skip_conn lvls.length lvls 1 dataset none with
    | .error e => .error e
    | .ok bp => .ok (bp, a)

/-- Fixture pipeline. -/
def pFixA : MLPipeline := ⟨"a", ["f1"]⟩

/-- Fixture pipeline. -/
def pFixB : MLPipeline := ⟨"b", ["f2"]⟩

/-- Fixture training dataset with fold information. -/
def dsFolds : LAMLDataset := ⟨0, ["f1", "f2"], 4, some [0, 1, 0, 1]⟩

/-- Fixture dataset without fold information. -/
def dsNoFolds : LAMLDataset := ⟨0, ["f1", "f2"], 4, none⟩

/-- Fixture world: reads a fold-equipped training dataset, pipelines
predict a single column named after themselves, the Blender reports how
many prediction datasets it was handed (as the row count) and keeps all
pipes, all conversions succeed and no Timer signal ever fires. -/
def wBase : World where
  fitRead := fun _ _ _ => (dsFolds, ["f1", "f2"])
  read := fun _ _ _ => dsNoFolds
  pipeFit := fun p _ => (p, ⟨0, [p.name], 4, none⟩)
  pipePredict := fun p _ => ⟨0, [p.name], 4, none⟩
  blendFit := fun preds pipes => (⟨0, [], preds.length, none⟩, pipes)
  blendPredict := fun preds => ⟨0, [], preds.length, none⟩
  convOk := fun _ _ => true
  tle := []
  childOOT := []

/-- Fixture world whose Reader produces no fold information. -/
def wNoFolds : World := { wBase with fitRead := fun _ _ _ => (dsNoFolds, ["f1", "f2"]) }

/-- Fixture world in which every dataset conversion fails. -/
def wConvFail : World := { wBase with convOk := fun _ _ => false }

/-- Fixture world whose time limit fires at the very first check. -/
def wTle0 : World := { wBase with tle := [true] }

/-- Fixture instance: one level of two pipelines, not yet fitted. -/
def amlOneLvl : AutoML := ⟨[], some [[pFixA, pFixB]], none, false⟩

/-- Fixture instance: two levels of one pipeline each, not yet fitted. -/
def amlTwoLvl : AutoML := ⟨[], some [[pFixA], [pFixB]], none, false⟩

/-- Fixture instance: two levels with skip connections, not yet fitted. -/
def amlTwoLvlSc : AutoML := ⟨[], some [[pFixA], [pFixB]], none, true⟩

/-- Fixture instance: already fitted, two retained levels. -/
def amlFitted : AutoML := ⟨[], none, some [[pFixA], [pFixB]], false⟩

/-- Fixture instance: already fitted with skip connections. -/
def amlFittedSc : AutoML := ⟨[], none, some [[pFixA], [pFixB]], true⟩

/-- Variant of the `fit_predict` tail following the claims wording: the
final levels predictions are first column-wise concatenated into one
Dataset and only then handed to the Blender. Stated only for comparison
with the embedding of the source, which passes the raw list. -/
def fitFinishClaimC1 (w : World) (a : AutoML) (ru : List String) (lr : LoopRes) :
    LAMLDataset × AutoML :=
  let bf := w.blendFit [concatenate lr.preds] lr.pipes
  let levels2 := lr.levels ++ [bf.2]
  let cuf := collectUsedFeatsOf levels2
  let remove := ru.filter (fun f => decide (f ∉ cuf))
  let readerUsed2 := ru.filter (fun f => decide (f ∉ remove))
  (bf.1, { a with readerUsed := readerUsed2, levels := some levels2, _levels := none })

/-- Variant of `fit_predict` following the claims wording, differing from
the embedding of the source only in the concatenation of the final
levels predictions before the Blender call. -/
def AutoML.fit_predict_claimC1 (w : World) (a : AutoML) (train_data : Raw) (roles : Roles)
    (train_features : Option (List String)) (cv_iter : Option CvIter)
    (valid_data : Option Raw) (valid_features : Option (List String)) :
    Except AmlError (LAMLDataset × AutoML) :=
  let fr := w.fitRead train_data train_features roles
  match a._levels with
  | none => .error (.attributeError "_levels")
  | some lvls =>
    if lvls.length ≤ 1 ∨ fr.1.folds.isSome then
      if lvls.length ≤ 1 ∨ valid_data = none then
        let valid_dataset := valid_data.map (fun vd => w.read vd valid_features true)
        let train_valid := createValidationIterator fr.1 valid_dataset none cv_iter
        match runLevels w a.skip_conn lvls.length lvls 1 train_valid 0 [] with
        | .error e => .error e
        | .ok lr => .ok (fitFinishClaimC1 w a fr.2 lr)
      else .error (.assertionError "Not possible to fit more than 1 level with holdout validation")
    else .error (.assertionError "Not possible to fit more than 1 level without cv folds")

/-- Result of the level loop on the one-level two-pipeline fixture. -/
def lrOneLvl : LoopRes := ⟨[], [pFixA, pFixB], [⟨0, ["a"], 4, none⟩, ⟨0, ["b"], 4, none⟩]⟩

/-- The fitted state produced by `fit_predict` on the two-level fixture. -/
def amlTwoDone : AutoML := ⟨["f1", "f2"], none, some [[pFixA], [pFixB]], false⟩

/-- The fitted state produced by `fit_predict` on the one-level fixture. -/
def amlOneDone : AutoML := ⟨["f1", "f2"], none, some [[pFixA, pFixB]], false⟩

/-! ## Lemmas and claim theorems -/

/-- When the time-limit schedule never fires, the inner pipeline loop
fits every pipeline of the level in order and does not time out. -/
theorem fitLevelPipes_noTimeout (w : World) (tv : TrainValid)
    (h : ∀ k, w.tle.getD k false = false) (ps : List MLPipeline) :
    ∀ fits, fitLevelPipes w tv ps fits =
      ⟨ps.map (fun p => (w.pipeFit p tv).1), ps.map (fun p => (w.pipeFit p tv).2),
        fits + ps.length, false⟩ := by
  induction ps with
  | nil => intro fits; simp [fitLevelPipes]
  | cons p ps ih =>
    intro fits
    simp only [fitLevelPipes]
    rw [h fits]
    simp [ih (fits + 1)]
    omega

/-- The inner pipeline loop always returns the fitted prefix of the
level: some first `m` pipelines, fitted in order against the same
iterator, with their predictions aligned one-to-one. -/
theorem fitLevelPipes_take (w : World) (tv : TrainValid) (ps : List MLPipeline) :
    ∀ fits, ∃ m, m ≤ ps.length ∧
      (fitLevelPipes w tv ps fits).pipes = (ps.take m).map (fun p => (w.pipeFit p tv).1) ∧
      (fitLevelPipes w tv ps fits).preds = (ps.take m).map (fun p => (w.pipeFit p tv).2) := by
  induction ps with
  | nil => intro fits; exact ⟨0, by simp, by simp [fitLevelPipes], by simp [fitLevelPipes]⟩
  | cons p ps ih =>
    intro fits
    cases hf : w.tle.getD fits false with
    | true =>
      refine ⟨1, by simp, ?_, ?_⟩ <;>
        · simp only [fitLevelPipes]
          rw [hf]
          simp
    | false =>
      obtain ⟨m, hm, h1, h2⟩ := ih (fits + 1)
      refine ⟨m + 1, by simpa using hm, ?_, ?_⟩ <;>
        · simp only [fitLevelPipes]
          rw [hf]
          simp [h1, h2]

/-- When the time-limit schedule first fires at the check after the
fit of pipeline `j` of the level, the loop stops there: exactly the
first `j + 1` pipelines are fitted and the timed-out flag is set. -/
theorem fitLevelPipes_fireAt (w : World) (tv : TrainValid) (ps : List MLPipeline) :
    ∀ j fits, j < ps.length →
      (∀ i, i < j → w.tle.getD (fits + i) false = false) →
      w.tle.getD (fits + j) false = true →
      fitLevelPipes w tv ps fits =
        ⟨(ps.take (j + 1)).map (fun p => (w.pipeFit p tv).1),
          (ps.take (j + 1)).map (fun p => (w.pipeFit p tv).2),
          fits + j + 1, true⟩ := by
  induction ps with
  | nil => intro j fits hj _ _; simp at hj
  | cons p ps ih =>
    intro j fits hj hbefore hfire
    match j with
    | 0 =>
      have hf : w.tle.getD fits false = true := by simpa using hfire
      simp only [fitLevelPipes]
      rw [hf]
      simp
    | j + 1 =>
      have h0 : w.tle.getD fits false = false := by simpa using hbefore 0 (by omega)
      have hrec := ih j (fits + 1) (by simpa using hj)
        (fun i hi => by
          have := hbefore (i + 1) (by omega)
          simpa [Nat.add_assoc, Nat.add_comm 1 i] using this)
        (by
          have := hfire
          simpa [Nat.add_assoc, Nat.add_comm 1 j] using this)
      simp only [fitLevelPipes]
      rw [h0]
      simp [hrec]
      omega

theorem runLevels_error_typeError (w : World) (sc : Bool) (N : Nat) :
    ∀ ls n tv fits acc e, runLevels w sc N ls n tv fits acc = .error e →
      e = .typeError convErrMsg := by
  intro ls
  induction ls with
  | nil => intro n tv fits acc e h; simp [runLevels] at h
  | cons lvl rest ih =>
    intro n tv fits acc e h
    simp only [runLevels] at h
    cases hto : (fitLevelPipes w tv lvl fits).timedOut <;>
      cases hoo : w.childOOT.getD (fitLevelPipes w tv lvl fits).fits false <;>
        cases hnn : n == N <;>
          simp only [hto, hoo, hnn, if_true, if_false, Bool.false_eq_true, ite_true,
            ite_false] at h <;>
      first
        | exact absurd h (by simp)
        | (split at h
           · split at h
             · simp only [Except.error.injEq] at h
               exact h.symm
             · exact ih _ _ _ _ _ h
           · exact ih _ _ _ _ _ h)

/-- Computation rule for the level loop when the level is final (timer
fired, child task over budget, or last configured level): the loop stops
with the fitted pipes and their raw predictions. -/
theorem runLevels_cons_stop (w : World) (sc : Bool) (N : Nat)
    (lvl : List MLPipeline) (rest : List (List MLPipeline)) (n : Nat)
    (tv : TrainValid) (fits : Nat) (acc : List (List MLPipeline))
    (hflg : (fitLevelPipes w tv lvl fits).timedOut = true ∨
      w.childOOT.getD (fitLevelPipes w tv lvl fits).fits false = true ∨ n = N) :
    runLevels w sc N (lvl :: rest) n tv fits acc =
      .ok ⟨acc, (fitLevelPipes w tv lvl fits).pipes, (fitLevelPipes w tv lvl fits).preds⟩ := by
  simp only [runLevels]
  cases hto : (fitLevelPipes w tv lvl fits).timedOut with
  | true => simp
  | false =>
    cases hoo : w.childOOT.getD (fitLevelPipes w tv lvl fits).fits false with
    | true => simp
    | false =>
      have hn : n = N := by
        rcases hflg with h | h | h
        · rw [hto] at h; exact Bool.noConfusion h
        · rw [hoo] at h; exact Bool.noConfusion h
        · exact h
      simp [hn]

/-- Computation rule for the level loop when the level is not final: the
loop records it, merges its predictions, optionally applies the
skip-connection conversion and recurses. -/
theorem runLevels_cons_go (w : World) (sc : Bool) (N : Nat)
    (lvl : List MLPipeline) (rest : List (List MLPipeline)) (n : Nat)
    (tv : TrainValid) (fits : Nat) (acc : List (List MLPipeline))
    (hto : (fitLevelPipes w tv lvl fits).timedOut = false)
    (hoo : w.childOOT.getD (fitLevelPipes w tv lvl fits).fits false = false)
    (hnn : n ≠ N) :
    runLevels w sc N (lvl :: rest) n tv fits acc =
      if sc then
        match fromDataset w tv.get_validation_data
            (concatenate (fitLevelPipes w tv lvl fits).preds) with
        | .error _ => .error (.typeError convErrMsg)
        | .ok lp1 =>
          runLevels w sc N rest (n + 1)
            (createValidationIterator (concatenate [lp1, tv.get_validation_data]) none none none)
            (fitLevelPipes w tv lvl fits).fits (acc ++ [(fitLevelPipes w tv lvl fits).pipes])
      else
        runLevels w sc N rest (n + 1)
          (createValidationIterator (concatenate (fitLevelPipes w tv lvl fits).preds) none none none)
          (fitLevelPipes w tv lvl fits).fits (acc ++ [(fitLevelPipes w tv lvl fits).pipes]) := by
  have hb : (n == N) = false := by simp [hnn]
  simp only [runLevels, hto, hoo, hb, if_true, if_false, Bool.false_eq_true, ite_true, ite_false]

/-- When neither Timer signal ever fires, the level loop keeps every
configured level: the recorded non-final levels retain all their
pipelines level by level, and the loop ends at the last configured level
with one fitted pipe and one prediction per pipeline of that level. -/
theorem runLevels_noTimeout (w : World) (sc : Bool) (N : Nat)
    (htle : ∀ k, w.tle.getD k false = false)
    (hoot : ∀ k, w.childOOT.getD k false = false) :
    ∀ ls n tv fits acc r, n + ls.length = N + 1 →
      runLevels w sc N ls n tv fits acc = .ok r →
      r.levels.map List.length = acc.map List.length ++ ls.dropLast.map List.length ∧
      r.pipes.length = (ls.getLast?.getD []).length ∧
      r.preds.length = (ls.getLast?.getD []).length := by
  intro ls
  induction ls with
  | nil =>
    intro n tv fits acc r hinv h
    simp only [runLevels, Except.ok.injEq] at h
    subst h
    simp
  | cons lvl rest ih =>
    intro n tv fits acc r hinv h
    have hlf := fitLevelPipes_noTimeout w tv htle lvl fits
    cases rest with
    | nil =>
      have hn : n = N := by simp at hinv; omega
      rw [runLevels_cons_stop w sc N lvl [] n tv fits acc (Or.inr (Or.inr hn))] at h
      simp only [Except.ok.injEq] at h
      subst h
      simp [hlf]
    | cons l2 rest2 =>
      have hn : n ≠ N := by simp at hinv; omega
      rw [runLevels_cons_go w sc N lvl (l2 :: rest2) n tv fits acc
        (by rw [hlf]) (hoot _) hn] at h
      have step : ∀ tv2, runLevels w sc N (l2 :: rest2) (n + 1) tv2
          (fitLevelPipes w tv lvl fits).fits (acc ++ [(fitLevelPipes w tv lvl fits).pipes]) =
            .ok r →
          r.levels.map List.length =
            acc.map List.length ++ ((lvl :: l2 :: rest2).dropLast).map List.length ∧
          r.pipes.length = ((lvl :: l2 :: rest2).getLast?.getD []).length ∧
          r.preds.length = ((lvl :: l2 :: rest2).getLast?.getD []).length := by
        intro tv2 hrun
        obtain ⟨h1, h2, h3⟩ := ih (n + 1) tv2 (fitLevelPipes w tv lvl fits).fits
          (acc ++ [(fitLevelPipes w tv lvl fits).pipes]) r (by simp at hinv ⊢; omega) hrun
        refine ⟨?_, by simpa using h2, by simpa using h3⟩
        rw [h1]
        simp [hlf]
      split at h
      · split at h
        · exact absurd h (by simp)
        · exact step _ h
      · exact step _ h

/-- Projections of the `fit_predict` tail. -/
theorem fitFinish_fst (w : World) (a : AutoML) (ru : List String) (lr : LoopRes) :
    (fitFinish w a ru lr).1 = (w.blendFit lr.preds lr.pipes).1 := rfl

/-- The retained levels after `fit_predict` are the non-final levels of
the loop followed by the pruned subset returned by the Blender. -/
theorem fitFinish_levels (w : World) (a : AutoML) (ru : List String) (lr : LoopRes) :
    (fitFinish w a ru lr).2.levels = some (lr.levels ++ [(w.blendFit lr.preds lr.pipes).2]) := rfl

/-- The original level configuration is deleted by `fit_predict`. -/
theorem fitFinish_levels_deleted (w : World) (a : AutoML) (ru : List String) (lr : LoopRes) :
    (fitFinish w a ru lr).2._levels = none := rfl

/-- The Reader used-features bookkeeping after the `fit_predict` tail:
the used features of the Reader, minus those not referenced by any
retained pipeline. -/
theorem fitFinish_readerUsed (w : World) (a : AutoML) (ru : List String) (lr : LoopRes) :
    (fitFinish w a ru lr).2.readerUsed =
      ru.filter (fun x => decide (x ∉
        ru.filter (fun y => decide (y ∉
          collectUsedFeatsOf (lr.levels ++ [(w.blendFit lr.preds lr.pipes).2]))))) := rfl

/-- Computation rule for `fit_predict` once the configuration assertions
hold: the run is the level loop followed by the blending tail. -/
theorem fit_predict_eq (w : World) (a : AutoML) (td : Raw) (roles : Roles)
    (tf : Option (List String)) (cvi : Option CvIter) (vd : Option Raw)
    (vf : Option (List String)) (lvls : List (List MLPipeline))
    (hl : a._levels = some lvls)
    (h1 : lvls.length ≤ 1 ∨ (w.fitRead td tf roles).1.folds.isSome)
    (h2 : lvls.length ≤ 1 ∨ vd = none) :
    AutoML.fit_predict w a td roles tf cvi vd vf =
      match runLevels w a.skip_conn lvls.length lvls 1
          (createValidationIterator (w.fitRead td tf roles).1
            (vd.map (fun v => w.read v vf true)) none cvi) 0 [] with
      | .error e => .error e
      | .ok lr => .ok (fitFinish w a (w.fitRead td tf roles).2 lr) := by
  simp only [AutoML.fit_predict, hl]
  rw [if_pos h1, if_pos h2]

/-- Inversion principle for a successful `fit_predict` run: the instance
had its configuration, both assertions held, the level loop succeeded
and the result is the blending tail of the loop result. -/
theorem fit_predict_ok_elim (w : World) (a : AutoML) (td : Raw) (roles : Roles)
    (tf : Option (List String)) (cvi : Option CvIter) (vd : Option Raw)
    (vf : Option (List String)) (p : LAMLDataset) (a2 : AutoML)
    (h : AutoML.fit_predict w a td roles tf cvi vd vf = .ok (p, a2)) :
    ∃ lvls lr, a._levels = some lvls ∧
      (lvls.length ≤ 1 ∨ (w.fitRead td tf roles).1.folds.isSome) ∧
      (lvls.length ≤ 1 ∨ vd = none) ∧
      runLevels w a.skip_conn lvls.length lvls 1
        (createValidationIterator (w.fitRead td tf roles).1
          (vd.map (fun v => w.read v vf true)) none cvi) 0 [] = .ok lr ∧
      (p, a2) = fitFinish w a (w.fitRead td tf roles).2 lr := by
  cases hlv : a._levels with
  | none =>
    simp only [AutoML.fit_predict, hlv] at h
    exact Except.noConfusion h
  | some lvls =>
    simp only [AutoML.fit_predict, hlv] at h
    split at h
    case isTrue h1 =>
      split at h
      case isTrue h2 =>
        split at h
        · exact Except.noConfusion h
        case _ lr hlr =>
          refine ⟨lvls, lr, rfl, h1, h2, hlr, ?_⟩
          simp only [Except.ok.injEq] at h
          exact h.symm
      case isFalse h2 => exact Except.noConfusion h
    case isFalse h1 => exact Except.noConfusion h

/-- Conversion only depends on the conversion table of the world. -/
theorem fromDataset_congr (w1 w2 : World) (h : w1.convOk = w2.convOk) :
    fromDataset w1 = fromDataset w2 := by
  funext b o
  simp [fromDataset, h]

/-- The inference loop depends only on the prediction, blending and
conversion behaviour of the world: in particular it never consults the
Timer schedules. -/
theorem predictLevels_congr (w1 w2 : World) (sc : Bool) (N : Nat)
    (hpp : w1.pipePredict = w2.pipePredict) (hbp : w1.blendPredict = w2.blendPredict)
    (hco : w1.convOk = w2.convOk) :
    ∀ ls n ds bp, predictLevels w1 sc N ls n ds bp = predictLevels w2 sc N ls n ds bp := by
  intro ls
  induction ls with
  | nil => intro n ds bp; rfl
  | cons lvl rest ih =>
    intro n ds bp
    simp only [predictLevels, hpp, hbp, fromDataset_congr w1 w2 hco, ih]

/-- Inversion principle for a successful `predict` call: the retained
levels existed, the inference loop succeeded and the instance state is
returned unchanged. -/
theorem predict_ok_elim (w : World) (a : AutoML) (d : Raw) (f : Option (List String))
    (bp : Option LAMLDataset) (a2 : AutoML)
    (h : AutoML.predict w a d f = .ok (bp, a2)) :
    ∃ lvls, a.levels = some lvls ∧ a2 = a ∧
      predictLevels w a.skip_conn lvls.length lvls 1 (w.read d f false) none = .ok bp := by
  cases hlv : a.levels with
  | none =>
    simp only [AutoML.predict, hlv] at h
    exact Except.noConfusion h
  | some lvls =>
    simp only [AutoML.predict, hlv] at h
    split at h
    · exact Except.noConfusion h
    case _ bp2 hbp =>
      refine ⟨lvls, rfl, ?_, ?_⟩
      · simp only [Except.ok.injEq, Prod.mk.injEq] at h
        exact h.2.symm
      · simp only [Except.ok.injEq, Prod.mk.injEq] at h
        rw [hbp, h.1]

/-- Computation rule for `predict` when the retained levels exist. -/
theorem predict_eq (w : World) (a : AutoML) (d : Raw) (f : Option (List String))
    (lvls : List (List MLPipeline)) (hlv : a.levels = some lvls) :
    AutoML.predict w a d f =
      match predictLevels w a.skip_conn lvls.length lvls 1 (w.read d f false) none with
      | .error e => .error e
      | .ok bp => .ok (bp, a) := by
  simp only [AutoML.predict, hlv]

/-- The final level of the inference loop hands the Blender the raw list
of per-pipeline predictions. -/
theorem predictLevels_last (w : World) (sc : Bool) (N : Nat) (lvl : List MLPipeline)
    (ds : LAMLDataset) (bp : Option LAMLDataset) :
    predictLevels w sc N [lvl] N ds bp =
      .ok (some (w.blendPredict (lvl.map (fun p => w.pipePredict p ds)))) := by
  simp [predictLevels]

/-- A non-final inference level whose concatenated predictions cannot be
converted to the incoming Dataset type raises the distinct TypeError. -/
theorem predictLevels_convFail (w : World) (N : Nat) (lvl : List MLPipeline)
    (rest : List (List MLPipeline)) (n : Nat) (ds : LAMLDataset) (bp : Option LAMLDataset)
    (hnn : n ≠ N)
    (hcv : w.convOk ds.dtype (concatenate (lvl.map (fun p => w.pipePredict p ds))).dtype = false) :
    predictLevels w true N (lvl :: rest) n ds bp = .error (.typeError convErrMsg) := by
  simp only [predictLevels]
  rw [if_pos hnn]
  simp [fromDataset, hcv]

/-- Inversion principle for a successful `create` call. -/
theorem create_ok_elim (ru : List String) (levels : List (List MLPipeline)) (sc : Bool)
    (a : AutoML) (h : AutoML.create ru levels sc = .ok a) :
    0 < levels.length ∧ a = ⟨ru, some (renameLevels 0 levels), none, sc⟩ := by
  unfold AutoML.create at h
  split at h
  · refine ⟨by assumption, ?_⟩
    simp only [Except.ok.injEq] at h
    exact h.symm
  · exact Except.noConfusion h

/-- Element-wise description of the renaming loop over one level. -/
theorem renamePipes_getElem (i : Nat) (ps : List MLPipeline) :
    ∀ (j0 j : Nat), (renamePipes i j0 ps)[j]? =
      ps[j]?.map (fun q =>
        q.upd_model_names ("Lvl_" ++ toString i ++ "_Pipe_" ++ toString (j0 + j))) := by
  induction ps with
  | nil => intro j0 j; simp [renamePipes]
  | cons p ps ih =>
    intro j0 j
    cases j with
    | zero => simp [renamePipes]
    | succ j =>
      have harith : j0 + 1 + j = j0 + (j + 1) := by omega
      simp only [renamePipes, List.getElem?_cons_succ, ih (j0 + 1) j, harith]

/-- Element-wise description of the renaming loop over the levels. -/
theorem renameLevels_getElem (ls : List (List MLPipeline)) :
    ∀ (i0 i : Nat), (renameLevels i0 ls)[i]? =
      ls[i]?.map (fun lv => renamePipes (i0 + i) 0 lv) := by
  induction ls with
  | nil => intro i0 i; simp [renameLevels]
  | cons lvl ls ih =>
    intro i0 i
    cases i with
    | zero => simp [renameLevels]
    | succ i =>
      have harith : i0 + 1 + i = i0 + (i + 1) := by omega
      simp only [renameLevels, List.getElem?_cons_succ, ih (i0 + 1) i, harith]

/-- C1 counterexample: one level with two pipelines, and a Blender whose
blended output records how many prediction Datasets it received. The
source passes two unconcatenated per-pipeline Datasets (output rows = 2);
the claims wording would pass one concatenated Dataset (output rows = 1),
so the claim as stated is false on the code. -/
theorem c1_counterexample :
    (AutoML.fit_predict wBase amlOneLvl 0 0 none none none none).map Prod.fst =
      .ok ⟨0, [], 2, none⟩ ∧
    (AutoML.fit_predict_claimC1 wBase amlOneLvl 0 0 none none none none).map Prod.fst =
      .ok ⟨0, [], 1, none⟩ ∧
    (⟨0, [], 2, none⟩ : LAMLDataset) ≠ ⟨0, [], 1, none⟩ := by
  refine ⟨rfl, rfl, by decide⟩

/-- Whatever stops the level loop, the result it hands on always consists
of the fitted prefix of one configured level: per-pipeline pipes and
predictions aligned one-to-one, never merged. -/
theorem runLevels_final_shape (w : World) (sc : Bool) (N : Nat) :
    ∀ ls, ls ≠ [] → ∀ n tv fits acc lr,
      runLevels w sc N ls n tv fits acc = .ok lr →
      ∃ lvl tv2 m, lvl ∈ ls ∧ m ≤ lvl.length ∧
        lr.pipes = (lvl.take m).map (fun q => (w.pipeFit q tv2).1) ∧
        lr.preds = (lvl.take m).map (fun q => (w.pipeFit q tv2).2) := by
  intro ls
  induction ls with
  | nil => intro hne; exact absurd rfl hne
  | cons lvl rest ih =>
    intro _ n tv fits acc lr h
    by_cases hstop : (fitLevelPipes w tv lvl fits).timedOut = true ∨
        w.childOOT.getD (fitLevelPipes w tv lvl fits).fits false = true ∨ n = N
    · rw [runLevels_cons_stop w sc N lvl rest n tv fits acc hstop] at h
      simp only [Except.ok.injEq] at h
      obtain ⟨m, hm, h1, h2⟩ := fitLevelPipes_take w tv lvl fits
      exact ⟨lvl, tv, m, by simp, hm, by rw [← h]; exact h1, by rw [← h]; exact h2⟩
    · push_neg at hstop
      obtain ⟨hto, hoo, hnn⟩ := hstop
      rw [runLevels_cons_go w sc N lvl rest n tv fits acc
        (by simpa using hto) (by simpa using hoo) hnn] at h
      cases rest with
      | nil =>
        have hnil : lr.pipes = [] ∧ lr.preds = [] := by
          split at h
          · split at h
            · exact Except.noConfusion h
            · simp only [runLevels, Except.ok.injEq] at h
              rw [← h]
              exact ⟨rfl, rfl⟩
          · simp only [runLevels, Except.ok.injEq] at h
            rw [← h]
            exact ⟨rfl, rfl⟩
        exact ⟨lvl, tv, 0, by simp, by simp, by simp [hnil.1], by simp [hnil.2]⟩
      | cons l2 rest2 =>
        have hrec : ∀ tv2 fits2 acc2,
            runLevels w sc N (l2 :: rest2) (n + 1) tv2 fits2 acc2 = .ok lr →
            ∃ lvl2 tv3 m, lvl2 ∈ lvl :: l2 :: rest2 ∧ m ≤ lvl2.length ∧
              lr.pipes = (lvl2.take m).map (fun q => (w.pipeFit q tv3).1) ∧
              lr.preds = (lvl2.take m).map (fun q => (w.pipeFit q tv3).2) := by
          intro tv2 fits2 acc2 hrun
          obtain ⟨lvl2, tv3, m, hmem, hm, h1, h2⟩ := ih (by simp) (n + 1) tv2 fits2 acc2 lr hrun
          exact ⟨lvl2, tv3, m, List.mem_cons_of_mem lvl hmem, hm, h1, h2⟩
        split at h
        · split at h
          · exact Except.noConfusion h
          · exact hrec _ _ _ h
        · exact hrec _ _ _ h

/-- C1 (amended): the final processed levels predictions reach the Blender
as the unconcatenated sequence of per-pipeline prediction Datasets,
aligned one-to-one with the fitted pipelines of that level: in
`fit_predict` the Blender fit receives the raw prediction list of the
fitted prefix of one configured level, and in `predict` the final level
hands the Blender the raw list of its per-pipeline predictions. -/
theorem c1_theorem :
    (∀ (w : World) (a : AutoML) (td : Raw) (roles : Roles) (tf : Option (List String))
        (cvi : Option CvIter) (vd : Option Raw) (vf : Option (List String))
        (p : LAMLDataset) (a2 : AutoML) (lvls : List (List MLPipeline)),
      a._levels = some lvls → lvls ≠ [] →
      AutoML.fit_predict w a td roles tf cvi vd vf = .ok (p, a2) →
      ∃ lr lvl tv2 m,
        runLevels w a.skip_conn lvls.length lvls 1
          (createValidationIterator (w.fitRead td tf roles).1
            (vd.map (fun v => w.read v vf true)) none cvi) 0 [] = .ok lr ∧
        p = (w.blendFit lr.preds lr.pipes).1 ∧
        lvl ∈ lvls ∧ m ≤ lvl.length ∧
        lr.pipes = (lvl.take m).map (fun q => (w.pipeFit q tv2).1) ∧
        lr.preds = (lvl.take m).map (fun q => (w.pipeFit q tv2).2)) ∧
    (∀ (w : World) (sc : Bool) (N : Nat) (lvl : List MLPipeline) (ds : LAMLDataset)
        (bp : Option LAMLDataset),
      predictLevels w sc N [lvl] N ds bp =
        .ok (some (w.blendPredict (lvl.map (fun q => w.pipePredict q ds))))) := by
  constructor
  · intro w a td roles tf cvi vd vf p a2 lvls hl hne h
    obtain ⟨lvls2, lr, hl2, h1, h2, hrun, heq⟩ :=
      fit_predict_ok_elim w a td roles tf cvi vd vf p a2 h
    have hsame : lvls2 = lvls := by
      rw [hl] at hl2
      exact (Option.some.injEq _ _ ▸ hl2.symm)
    rw [hsame] at hrun
    obtain ⟨lvl, tv2, m, hmem, hm, hp1, hp2⟩ :=
      runLevels_final_shape w a.skip_conn lvls.length lvls hne 1 _ 0 [] lr hrun
    refine ⟨lr, lvl, tv2, m, hrun, ?_, hmem, hm, hp1, hp2⟩
    have := congrArg Prod.fst heq
    simpa [fitFinish_fst] using this
  · intro w sc N lvl ds bp
    exact predictLevels_last w sc N lvl ds bp

/-- C1 witness: the amended theorem applied at the one-level
two-pipeline fixture and at a singleton final inference level. -/
theorem c1_witness :
    (∃ lr lvl tv2 m,
      runLevels wBase amlOneLvl.skip_conn [[pFixA, pFixB]].length [[pFixA, pFixB]] 1
        (createValidationIterator (wBase.fitRead 0 none 0).1
          ((none : Option Raw).map (fun v => wBase.read v none true)) none none) 0 [] =
        .ok lr ∧
      (⟨0, [], 2, none⟩ : LAMLDataset) = (wBase.blendFit lr.preds lr.pipes).1 ∧
      lvl ∈ [[pFixA, pFixB]] ∧ m ≤ lvl.length ∧
      lr.pipes = (lvl.take m).map (fun q => (wBase.pipeFit q tv2).1) ∧
      lr.preds = (lvl.take m).map (fun q => (wBase.pipeFit q tv2).2)) ∧
    predictLevels wBase false 1 [[pFixA]] 1 dsNoFolds none =
      .ok (some (wBase.blendPredict ([pFixA].map (fun q => wBase.pipePredict q dsNoFolds)))) :=
  ⟨c1_theorem.1 wBase amlOneLvl 0 0 none none none none ⟨0, [], 2, none⟩
      ⟨["f1", "f2"], none, some [[pFixA, pFixB]], false⟩ [[pFixA, pFixB]] rfl
      (by simp) rfl,
    c1_theorem.2 wBase false 1 [pFixA] dsNoFolds none⟩

/-- C2 counterexample: two levels, a Reader that produces no fold
information and an explicitly supplied custom cv iterator: `fit_predict`
still raises the folds assertion, so a custom `cv_iter` is not
sufficient to fit more than one level. -/
theorem c2_counterexample :
    AutoML.fit_predict wNoFolds amlTwoLvl 0 0 none (some 7) none none =
      .error (.assertionError "Not possible to fit more than 1 level without cv folds") := rfl

/-- C2 (amended): with more than one configured level, `fit_predict`
raises the folds assertion if and only if the Reader-produced training
Dataset carries no fold information; a caller-supplied cv iterator does
not lift the requirement. -/
theorem c2_theorem (w : World) (a : AutoML) (td : Raw) (roles : Roles)
    (tf : Option (List String)) (cvi : Option CvIter) (vd : Option Raw)
    (vf : Option (List String)) (lvls : List (List MLPipeline))
    (hl : a._levels = some lvls) (hN : 1 < lvls.length) :
    (AutoML.fit_predict w a td roles tf cvi vd vf =
        .error (.assertionError "Not possible to fit more than 1 level without cv folds")) ↔
      (w.fitRead td tf roles).1.folds = none := by
  have hgt : ¬ lvls.length ≤ 1 := by omega
  constructor
  · intro h
    cases hf : (w.fitRead td tf roles).1.folds with
    | none => rfl
    | some fs =>
      exfalso
      simp only [AutoML.fit_predict, hl] at h
      rw [if_pos (Or.inr (by simp [hf]))] at h
      split at h
      · split at h
        case _ e he =>
          have hty := runLevels_error_typeError w a.skip_conn lvls.length lvls 1 _ 0 [] e he
          simp only [Except.error.injEq] at h
          rw [hty] at h
          exact AmlError.noConfusion h
        case _ lr hlr => exact Except.noConfusion h
      · simp only [Except.error.injEq, AmlError.assertionError.injEq] at h
        exact absurd h (by decide)
  · intro h
    simp only [AutoML.fit_predict, hl]
    rw [if_neg]
    rw [h]
    simp [hgt]

/-- C2 witness: the amended iff applied at the two-level no-folds fixture
with a supplied custom cv iterator. -/
theorem c2_witness :
    (AutoML.fit_predict wNoFolds amlTwoLvl 0 0 none (some 7) none none =
        .error (.assertionError "Not possible to fit more than 1 level without cv folds")) ↔
      (wNoFolds.fitRead 0 none 0).1.folds = none :=
  c2_theorem wNoFolds amlTwoLvl 0 0 none (some 7) none none [[pFixA], [pFixB]] rfl
    (by decide)

/-- C3 counterexample: the name stamped by initialization is
Lvl_0_Pipe_0, not Level_0_Pipe_0 as the claim states. -/
theorem c3_counterexample :
    AutoML.create ["x"] [[⟨"n", []⟩]] false =
      .ok ⟨["x"], some [[⟨"Lvl_0_Pipe_0", []⟩]], none, false⟩ ∧
    ("Lvl_0_Pipe_0" : String) ≠ "Level_0_Pipe_0" :=
  ⟨rfl, by decide⟩

/-- C3 (amended): after initialization, the pipeline at zero-based level
index i and position j carries the unique deterministic name
Lvl_i_Pipe_j. -/
theorem c3_theorem (ru : List String) (levels : List (List MLPipeline)) (sc : Bool)
    (a : AutoML) (h : AutoML.create ru levels sc = .ok a)
    (L : List (List MLPipeline)) (hL : a._levels = some L)
    (i j : Nat) (lvl : List MLPipeline) (p : MLPipeline)
    (hi : L[i]? = some lvl) (hj : lvl[j]? = some p) :
    p.name = "Lvl_" ++ toString i ++ "_Pipe_" ++ toString j := by
  obtain ⟨-, ha⟩ := create_ok_elim ru levels sc a h
  subst ha
  simp only [Option.some.injEq] at hL
  rw [← hL] at hi
  rw [renameLevels_getElem] at hi
  cases hlv : levels[i]? with
  | none => rw [hlv] at hi; exact Option.noConfusion hi
  | some lvl0 =>
    rw [hlv] at hi
    simp at hi
    rw [← hi] at hj
    rw [renamePipes_getElem] at hj
    cases hp0 : lvl0[j]? with
    | none => rw [hp0] at hj; exact Option.noConfusion hj
    | some q =>
      rw [hp0] at hj
      simp at hj
      rw [← hj]
      simp [MLPipeline.upd_model_names]

/-- C3 witness: the amended naming theorem applied at a singleton
configuration. -/
theorem c3_witness :
    (⟨"Lvl_0_Pipe_0", []⟩ : MLPipeline).name = "Lvl_" ++ toString 0 ++ "_Pipe_" ++ toString 0 :=
  c3_theorem ["x"] [[⟨"n", []⟩]] false ⟨["x"], some [[⟨"Lvl_0_Pipe_0", []⟩]], none, false⟩ rfl
    [[⟨"Lvl_0_Pipe_0", []⟩]] rfl 0 0 [⟨"Lvl_0_Pipe_0", []⟩] ⟨"Lvl_0_Pipe_0", []⟩ rfl rfl

/-- C4: when the Timer first reports the budget exceeded at the check
after the fit of pipeline j of the current level, the level loop stops
with exactly the first j+1 fitted pipelines (later pipelines of the
level are never started and no further level is processed: the recorded
levels stay at `acc`) and still returns successfully; and whenever the
level loop returns successfully, `fit_predict` raises nothing and
returns the Blender fit over the loops final pipes and predictions. -/
theorem c4_theorem :
    (∀ (w : World) (sc : Bool) (N : Nat) (lvl : List MLPipeline)
        (ls : List (List MLPipeline)) (n : Nat) (tv : TrainValid) (fits : Nat)
        (acc : List (List MLPipeline)) (j : Nat),
      j < lvl.length →
      (∀ i, i < j → w.tle.getD (fits + i) false = false) →
      w.tle.getD (fits + j) false = true →
      runLevels w sc N (lvl :: ls) n tv fits acc =
        .ok ⟨acc, (lvl.take (j + 1)).map (fun q => (w.pipeFit q tv).1),
          (lvl.take (j + 1)).map (fun q => (w.pipeFit q tv).2)⟩) ∧
    (∀ (w : World) (a : AutoML) (td : Raw) (roles : Roles) (tf : Option (List String))
        (cvi : Option CvIter) (vd : Option Raw) (vf : Option (List String))
        (lvls : List (List MLPipeline)) (lr : LoopRes),
      a._levels = some lvls →
      (lvls.length ≤ 1 ∨ (w.fitRead td tf roles).1.folds.isSome) →
      (lvls.length ≤ 1 ∨ vd = none) →
      runLevels w a.skip_conn lvls.length lvls 1
        (createValidationIterator (w.fitRead td tf roles).1
          (vd.map (fun v => w.read v vf true)) none cvi) 0 [] = .ok lr →
      AutoML.fit_predict w a td roles tf cvi vd vf =
        .ok ((w.blendFit lr.preds lr.pipes).1,
          (fitFinish w a (w.fitRead td tf roles).2 lr).2)) := by
  constructor
  · intro w sc N lvl ls n tv fits acc j hj hbefore hfire
    have hfl := fitLevelPipes_fireAt w tv lvl j fits hj hbefore hfire
    rw [runLevels_cons_stop w sc N lvl ls n tv fits acc (Or.inl (by rw [hfl]))]
    rw [hfl]
  · intro w a td roles tf cvi vd vf lvls lr hl h1 h2 hrun
    rw [fit_predict_eq w a td roles tf cvi vd vf lvls hl h1 h2, hrun]
    simp [Prod.ext_iff, fitFinish_fst]

/-- C5: with skip connections enabled, a failed conversion of the
concatenated prediction Dataset raises the distinctly-worded TypeError
telling the caller to set skip_conn=False, in both `fit_predict` (so no
next-level ValidationIterator is built) and `predict` (so no next-level
Dataset is built); there is no silent fallback. -/
theorem c5_theorem :
    (∀ (w : World) (a : AutoML) (td : Raw) (roles : Roles) (tf : Option (List String))
        (cvi : Option CvIter) (vf : Option (List String))
        (l1 : List MLPipeline) (rest : List (List MLPipeline)),
      a._levels = some (l1 :: rest) → rest ≠ [] → a.skip_conn = true →
      (w.fitRead td tf roles).1.folds.isSome →
      (∀ k, w.tle.getD k false = false) →
      (∀ k, w.childOOT.getD k false = false) →
      (∀ x y, w.convOk x y = false) →
      AutoML.fit_predict w a td roles tf cvi none vf = .error (.typeError convErrMsg)) ∧
    (∀ (w : World) (a : AutoML) (d : Raw) (f : Option (List String))
        (l1 : List MLPipeline) (rest : List (List MLPipeline)),
      a.levels = some (l1 :: rest) → rest ≠ [] → a.skip_conn = true →
      (∀ x y, w.convOk x y = false) →
      AutoML.predict w a d f = .error (.typeError convErrMsg)) := by
  constructor
  · intro w a td roles tf cvi vf l1 rest hl hrest hsc hfolds htle hoot hcv
    rw [fit_predict_eq w a td roles tf cvi none vf (l1 :: rest) hl
      (Or.inr hfolds) (Or.inr rfl)]
    have hnn : (1 : Nat) ≠ (l1 :: rest).length := by
      cases rest with
      | nil => exact absurd rfl hrest
      | cons r2 rest2 => simp
    rw [runLevels_cons_go w a.skip_conn (l1 :: rest).length l1 rest 1 _ 0 []
      (by rw [fitLevelPipes_noTimeout w _ htle] ) (hoot _) hnn]
    rw [hsc]
    simp [fromDataset, hcv]
  · intro w a d f l1 rest hl hrest hsc hcv
    rw [predict_eq w a d f (l1 :: rest) hl]
    have hnn : (1 : Nat) ≠ (l1 :: rest).length := by
      cases rest with
      | nil => exact absurd rfl hrest
      | cons r2 rest2 => simp
    rw [hsc, predictLevels_convFail w (l1 :: rest).length l1 rest 1 _ none hnn (hcv _ _)]

/-- C6: with N > 1 configured levels and no Timer signal ever firing, a
successful `fit_predict` retains exactly N levels: the first N-1 are the
non-final levels keeping every one of their pipelines (level by level),
and the final entry is the pruned subset returned by the Blender over the
last configured levels full complement of fitted pipes and predictions. -/
theorem c6_theorem (w : World) (a : AutoML) (td : Raw) (roles : Roles)
    (tf : Option (List String)) (cvi : Option CvIter) (vd : Option Raw)
    (vf : Option (List String)) (lvls : List (List MLPipeline)) (N : Nat)
    (p : LAMLDataset) (a2 : AutoML)
    (hl : a._levels = some lvls) (hN : lvls.length = N) (hN1 : 1 < N)
    (htle : ∀ k, w.tle.getD k false = false)
    (hoot : ∀ k, w.childOOT.getD k false = false)
    (h : AutoML.fit_predict w a td roles tf cvi vd vf = .ok (p, a2)) :
    ∃ L lr,
      runLevels w a.skip_conn N lvls 1
        (createValidationIterator (w.fitRead td tf roles).1
          (vd.map (fun v => w.read v vf true)) none cvi) 0 [] = .ok lr ∧
      a2.levels = some L ∧
      L = lr.levels ++ [(w.blendFit lr.preds lr.pipes).2] ∧
      L.length = N ∧
      lr.levels.map List.length = (lvls.dropLast).map List.length ∧
      lr.pipes.length = (lvls.getLast?.getD []).length ∧
      lr.preds.length = (lvls.getLast?.getD []).length := by
  obtain ⟨lvls2, lr, hl2, h1, h2, hrun, heq⟩ :=
    fit_predict_ok_elim w a td roles tf cvi vd vf p a2 h
  have hs : lvls2 = lvls := by
    rw [hl] at hl2
    exact (Option.some.injEq _ _ ▸ hl2.symm)
  rw [hs] at hrun
  rw [hN] at hrun
  obtain ⟨hml, hpl, hprl⟩ := runLevels_noTimeout w a.skip_conn N htle hoot lvls 1 _ 0 [] lr
    (by omega) hrun
  have ha2 : a2 = (fitFinish w a (w.fitRead td tf roles).2 lr).2 := congrArg Prod.snd heq
  have hml2 : lr.levels.map List.length = (lvls.dropLast).map List.length := by
    simpa using hml
  refine ⟨lr.levels ++ [(w.blendFit lr.preds lr.pipes).2], lr, hrun, ?_, rfl, ?_, hml2,
    hpl, hprl⟩
  · rw [ha2]
    exact fitFinish_levels w a _ lr
  · have hlen : lr.levels.length = lvls.dropLast.length := by
      have := congrArg List.length hml2
      simpa using this
    rw [List.length_append, hlen, List.length_dropLast]
    simp
    omega

/-- C7: after a successful `fit_predict`, `collect_used_feats` succeeds
and returns the union of the retained pipelines used features; under the
Pipeline contract that every retained pipelines used features come from
the Readers feature set F, that union is a subset of F; and the Readers
used-features bookkeeping retains no feature that is not referenced by at
least one retained pipeline. -/
theorem c7_theorem (w : World) (a : AutoML) (td : Raw) (roles : Roles)
    (tf : Option (List String)) (cvi : Option CvIter) (vd : Option Raw)
    (vf : Option (List String)) (p : LAMLDataset) (a2 : AutoML)
    (F : List String) (L : List (List MLPipeline))
    (h : AutoML.fit_predict w a td roles tf cvi vd vf = .ok (p, a2))
    (hL : a2.levels = some L)
    (hF : ∀ lvl ∈ L, ∀ q ∈ lvl, ∀ x ∈ q.usedFeatures, x ∈ F) :
    AutoML.collect_used_feats a2 = .ok (collectUsedFeatsOf L) ∧
    (∀ x ∈ collectUsedFeatsOf L, x ∈ F) ∧
    (∀ x ∈ a2.readerUsed, x ∈ collectUsedFeatsOf L) := by
  obtain ⟨lvls, lr, hl2, h1, h2, hrun, heq⟩ :=
    fit_predict_ok_elim w a td roles tf cvi vd vf p a2 h
  have ha2 : a2 = (fitFinish w a (w.fitRead td tf roles).2 lr).2 := congrArg Prod.snd heq
  have hLeq : lr.levels ++ [(w.blendFit lr.preds lr.pipes).2] = L := by
    have := fitFinish_levels w a (w.fitRead td tf roles).2 lr
    rw [← ha2, hL] at this
    exact (Option.some.injEq _ _ ▸ this).symm
  refine ⟨by simp [AutoML.collect_used_feats, hL], ?_, ?_⟩
  · intro x hx
    simp only [collectUsedFeatsOf, List.mem_dedup, List.mem_flatMap] at hx
    obtain ⟨lvl, hlvl, q, hq, hxq⟩ := hx
    exact hF lvl hlvl q hq x hxq
  · intro x hx
    rw [ha2, fitFinish_readerUsed, hLeq] at hx
    rw [List.mem_filter] at hx
    obtain ⟨hxru, hnrem⟩ := hx
    rw [decide_eq_true_eq] at hnrem
    by_contra hxn
    exact hnrem (by
      rw [List.mem_filter, decide_eq_true_eq]
      exact ⟨hxru, hxn⟩)

/-- C8: a successful `predict` leaves the orchestrator state (including
the Reader used-features bookkeeping) unchanged, a second identical call
returns the identical output, and the output is independent of the Timer
schedules (inference performs no time-budget checks). -/
theorem c8_theorem (w : World) (a : AutoML) (d : Raw) (f : Option (List String))
    (bp : Option LAMLDataset) (a2 : AutoML) (t2 c2 : List Bool)
    (h : AutoML.predict w a d f = .ok (bp, a2)) :
    a2 = a ∧
    AutoML.predict w a2 d f = .ok (bp, a2) ∧
    AutoML.predict { w with tle := t2, childOOT := c2 } a d f =
      AutoML.predict w a d f := by
  obtain ⟨lvls, hlv, ha2, hpl⟩ := predict_ok_elim w a d f bp a2 h
  subst ha2
  refine ⟨rfl, h, ?_⟩
  have hds : ({ w with tle := t2, childOOT := c2 } : World).read = w.read := rfl
  simp only [AutoML.predict, hlv, hds,
    predictLevels_congr { w with tle := t2, childOOT := c2 } w a2.skip_conn lvls.length
      rfl rfl rfl]

/-- C9: configuration errors are fatal and precede training: an empty
level list is rejected at construction, and more than one level together
with a supplied holdout validation dataset makes `fit_predict` raise an
assertion error before any pipeline fits. -/
theorem c9_theorem :
    (∀ (ru : List String) (sc : Bool),
      AutoML.create ru [] sc =
        .error (.assertionError "At least 1 level should be defined")) ∧
    (∀ (w : World) (a : AutoML) (td : Raw) (roles : Roles) (tf : Option (List String))
        (cvi : Option CvIter) (v : Raw) (vf : Option (List String))
        (lvls : List (List MLPipeline)),
      a._levels = some lvls → 1 < lvls.length →
      ∃ m, AutoML.fit_predict w a td roles tf cvi (some v) vf =
        .error (.assertionError m)) := by
  constructor
  · intro ru sc; rfl
  · intro w a td roles tf cvi v vf lvls hl hN
    have hgt : ¬ lvls.length ≤ 1 := by omega
    cases hf : (w.fitRead td tf roles).1.folds with
    | none =>
      refine ⟨"Not possible to fit more than 1 level without cv folds", ?_⟩
      simp only [AutoML.fit_predict, hl]
      rw [if_neg]
      rw [hf]
      simp [hgt]
    | some fs =>
      refine ⟨"Not possible to fit more than 1 level with holdout validation", ?_⟩
      simp only [AutoML.fit_predict, hl]
      rw [if_pos (Or.inr (by simp [hf])), if_neg (by simp [hgt])]

/-- C10: `fit_predict` is single-use: a successful run deletes the level
configuration, so a second `fit_predict` on the same instance fails with
an attribute error instead of retraining; and a freshly constructed
instance has no retained levels, so `predict` before any `fit_predict`
fails with an attribute error as well. -/
theorem c10_theorem :
    (∀ (w : World) (a : AutoML) (td : Raw) (roles : Roles) (tf : Option (List String))
        (cvi : Option CvIter) (vd : Option Raw) (vf : Option (List String))
        (p : LAMLDataset) (a2 : AutoML) (w2 : World) (td2 : Raw) (roles2 : Roles)
        (tf2 : Option (List String)) (cvi2 : Option CvIter) (vd2 : Option Raw)
        (vf2 : Option (List String)),
      AutoML.fit_predict w a td roles tf cvi vd vf = .ok (p, a2) →
      a2._levels = none ∧
      AutoML.fit_predict w2 a2 td2 roles2 tf2 cvi2 vd2 vf2 =
        .error (.attributeError "_levels")) ∧
    (∀ (ru : List String) (levels : List (List MLPipeline)) (sc : Bool) (a0 : AutoML)
        (w : World) (d : Raw) (f : Option (List String)),
      AutoML.create ru levels sc = .ok a0 →
      a0.levels = none ∧
      AutoML.predict w a0 d f = .error (.attributeError "levels")) := by
  constructor
  · intro w a td roles tf cvi vd vf p a2 w2 td2 roles2 tf2 cvi2 vd2 vf2 h
    obtain ⟨lvls, lr, hl, h1, h2, hrun, heq⟩ :=
      fit_predict_ok_elim w a td roles tf cvi vd vf p a2 h
    have ha2 : a2 = (fitFinish w a (w.fitRead td tf roles).2 lr).2 := congrArg Prod.snd heq
    have hnone : a2._levels = none := by rw [ha2]; exact fitFinish_levels_deleted w a _ lr
    exact ⟨hnone, by simp only [AutoML.fit_predict, hnone]⟩
  · intro ru levels sc a0 w d f h
    obtain ⟨-, ha⟩ := create_ok_elim ru levels sc a0 h
    have hnone : a0.levels = none := by rw [ha]
    exact ⟨hnone, by simp only [AutoML.predict, hnone]⟩

/-- C4 witness: the truncation rule applied where the budget fires after
the first fit of a two-pipeline level, and the completion rule applied on
the one-level fixture. -/
theorem c4_witness :
    runLevels wTle0 false 1 [[pFixA, pFixB]] 1
        (createValidationIterator dsFolds none none none) 0 [] =
      .ok ⟨[], ([pFixA, pFixB].take (0 + 1)).map (fun q =>
          (wTle0.pipeFit q (createValidationIterator dsFolds none none none)).1),
        ([pFixA, pFixB].take (0 + 1)).map (fun q =>
          (wTle0.pipeFit q (createValidationIterator dsFolds none none none)).2)⟩ ∧
    AutoML.fit_predict wBase amlOneLvl 0 0 none none none none =
      .ok ((wBase.blendFit lrOneLvl.preds lrOneLvl.pipes).1,
        (fitFinish wBase amlOneLvl (wBase.fitRead 0 none 0).2 lrOneLvl).2) :=
  ⟨c4_theorem.1 wTle0 false 1 [pFixA, pFixB] [] 1
      (createValidationIterator dsFolds none none none) 0 [] 0 (by simp)
      (fun i hi => absurd hi (Nat.not_lt_zero i)) rfl,
    c4_theorem.2 wBase amlOneLvl 0 0 none none none none [[pFixA, pFixB]] lrOneLvl rfl
      (Or.inl (by simp)) (Or.inl (by simp)) rfl⟩

/-- C5 witness: the conversion-failure TypeError raised on the two-level
skip-connection fixture, in training and in inference. -/
theorem c5_witness :
    AutoML.fit_predict wConvFail amlTwoLvlSc 0 0 none none none none =
      .error (.typeError convErrMsg) ∧
    AutoML.predict wConvFail amlFittedSc 0 none = .error (.typeError convErrMsg) :=
  ⟨c5_theorem.1 wConvFail amlTwoLvlSc 0 0 none none none [pFixA] [[pFixB]] rfl (by simp)
      rfl rfl (fun k => rfl) (fun k => rfl) (fun x y => rfl),
    c5_theorem.2 wConvFail amlFittedSc 0 none [pFixA] [[pFixB]] rfl (by simp) rfl
      (fun x y => rfl)⟩

/-- C6 witness: the retained-level count theorem applied on the two-level
fixture with no timeout. -/
theorem c6_witness :
    ∃ L lr,
      runLevels wBase amlTwoLvl.skip_conn 2 [[pFixA], [pFixB]] 1
        (createValidationIterator (wBase.fitRead 0 none 0).1
          ((none : Option Raw).map (fun v => wBase.read v none true)) none none) 0 [] =
        .ok lr ∧
      amlTwoDone.levels = some L ∧
      L = lr.levels ++ [(wBase.blendFit lr.preds lr.pipes).2] ∧
      L.length = 2 ∧
      lr.levels.map List.length = ([[pFixA], [pFixB]].dropLast).map List.length ∧
      lr.pipes.length = ([[pFixA], [pFixB]].getLast?.getD []).length ∧
      lr.preds.length = ([[pFixA], [pFixB]].getLast?.getD []).length :=
  c6_theorem wBase amlTwoLvl 0 0 none none none none [[pFixA], [pFixB]] 2
    ⟨0, [], 1, none⟩ amlTwoDone rfl rfl (by omega) (fun k => rfl) (fun k => rfl) rfl

/-- C7 witness: the used-features round trip on the two-level fixture. -/
theorem c7_witness :
    AutoML.collect_used_feats amlTwoDone = .ok (collectUsedFeatsOf [[pFixA], [pFixB]]) ∧
    (∀ x ∈ collectUsedFeatsOf [[pFixA], [pFixB]], x ∈ ["f1", "f2"]) ∧
    (∀ x ∈ amlTwoDone.readerUsed, x ∈ collectUsedFeatsOf [[pFixA], [pFixB]]) :=
  c7_theorem wBase amlTwoLvl 0 0 none none none none ⟨0, [], 1, none⟩ amlTwoDone
    ["f1", "f2"] [[pFixA], [pFixB]] rfl rfl (by decide)

/-- C8 witness: predict on the fitted two-level fixture: unchanged state,
identical second call, Timer-schedule independence. -/
theorem c8_witness :
    amlFitted = amlFitted ∧
    AutoML.predict wBase amlFitted 0 none = .ok (some ⟨0, [], 1, none⟩, amlFitted) ∧
    AutoML.predict { wBase with tle := [true], childOOT := [true] } amlFitted 0 none =
      AutoML.predict wBase amlFitted 0 none :=
  c8_theorem wBase amlFitted 0 none (some ⟨0, [], 1, none⟩) amlFitted [true] [true] rfl

/-- C9 witness: a holdout validation dataset with two levels is rejected
by an assertion before any pipeline fits. -/
theorem c9_witness :
    ∃ m, AutoML.fit_predict wBase amlTwoLvl 0 0 none none (some 5) none =
      .error (.assertionError m) :=
  c9_theorem.2 wBase amlTwoLvl 0 0 none none 5 none [[pFixA], [pFixB]] rfl (by decide)

/-- C10 witness: after fitting the one-level fixture, `_levels` is gone
and a second `fit_predict` fails; a freshly created instance has no
retained levels and `predict` fails. -/
theorem c10_witness :
    (amlOneDone._levels = none ∧
      AutoML.fit_predict wBase amlOneDone 0 0 none none none none =
        .error (.attributeError "_levels")) ∧
    ((⟨["x"], some [[⟨"Lvl_0_Pipe_0", []⟩]], none, false⟩ : AutoML).levels = none ∧
      AutoML.predict wBase ⟨["x"], some [[⟨"Lvl_0_Pipe_0", []⟩]], none, false⟩ 0 none =
        .error (.attributeError "levels")) :=
  ⟨c10_theorem.1 wBase amlOneLvl 0 0 none none none none ⟨0, [], 2, none⟩ amlOneDone
      wBase 0 0 none none none none rfl,
    c10_theorem.2 ["x"] [[⟨"n", []⟩]] false ⟨["x"], some [[⟨"Lvl_0_Pipe_0", []⟩]], none, false⟩
      wBase 0 none rfl⟩
